import Mathlib

/-!
Verification development for the logzen log-timestamp rewriter
(src/main.rs).  The Rust program compiles strftime-style format
specifications into regular expressions plus naive/zulu metadata
(convert_dt_spec_regex), and rewrites each input line by locating the
first matching pattern, reparsing the matched substring as a timestamp,
converting it to the local zone and substituting the rendered text back
(parse_timestamp).

The embedding below models:
  * chrono's format items (Item, Numeric, Fixed, Pad) and the
    StrftimeItems decomposition of a format string;
  * the regex source text emitted by convert_dt_spec_regex, exactly as
    the Rust code writes it (including the unescaped literals and the
    malformed "(?Z|..." fragment);
  * the semantics the Rust regex crate gives to the emitted source
    text: a parser from regex source to an AST (Regex::new; returning
    none models a compile error, which the program turns into a panic
    via unwrap) and a leftmost-first backtracking matcher (Regex::find);
  * enough of chrono's parsing, calendar arithmetic and formatting to
    run the rewriting pipeline; the local timezone is modelled as a
    fixed offset in seconds, passed explicitly.

Rust panics (unwrap, todo!, expect) are modelled as the value none.
Strings are modelled as List Char.
-/

namespace Logzen

/-- Padding mode of a chrono numeric format item. -/
inductive Pad where
  | None | Zero | Space
deriving DecidableEq, Repr

/-- Chrono numeric field kinds (chrono::format::Numeric). -/
inductive Numeric where
  | Year | YearDiv100 | YearMod100 | IsoYear | IsoYearDiv100 | IsoYearMod100
  | Month | Day | WeekFromSun | WeekFromMon | IsoWeek
  | NumDaysFromSun | WeekdayFromMon | Ordinal
  | Hour | Hour12 | Minute | Second | Nanosecond | Timestamp
  | Internal
deriving DecidableEq, Repr

/-- Chrono fixed-string field kinds (chrono::format::Fixed). -/
inductive Fixed where
  | ShortMonthName | LongMonthName | ShortWeekdayName | LongWeekdayName
  | LowerAmPm | UpperAmPm
  | Nanosecond | Nanosecond3 | Nanosecond6 | Nanosecond9
  | TimezoneName
  | TimezoneOffsetColon | TimezoneOffsetColonZ | TimezoneOffset | TimezoneOffsetZ
  | RFC2822 | RFC3339
  | Internal
deriving DecidableEq, Repr

/-- One atomic unit of a decomposed format specification
(chrono::format::Item).  Owned and borrowed literal/space variants of
chrono are collapsed: they behave identically. -/
inductive Item where
  | Literal (s : List Char)
  | Space (s : List Char)
  | Numeric (spec : Numeric) (pad : Pad)
  | Fixed (f : Fixed)
  | Error
deriving DecidableEq, Repr

/-! ### Character classes used by the generated regexes -/

/-- ASCII decimal digit, the regex class d. -/
def isDigitC (c : Char) : Bool := '0' ≤ c && c ≤ '9'

/-- Whitespace as matched by the regex class s (ASCII part). -/
def isWsC (c : Char) : Bool :=
  c = ' ' || c = '\t' || c = '\n' || c = '\r' || c = '\x0b' || c = '\x0c'

/-! ### Regex abstract syntax and leftmost-first matching semantics

The Rust regex crate uses leftmost-first (preference order) match
semantics: alternation prefers its left branch and repetition is
greedy.  The matcher below returns the list of possible remaining
suffixes in preference order; the head is the match the engine picks. -/

/-- Regex abstract syntax tree, covering the fragment language emitted
by convert_dt_spec_regex (character classes, counted repetitions,
groups, alternations) plus plain literal characters. -/
inductive Rx where
  | eps
  | lit (c : Char)
  | anyc
  | digit
  | wsp
  | cls (neg : Bool) (cs : List Char) (ranges : List (Char × Char))
  | alt (a b : Rx)
  | cat (a b : Rx)
  | star (a : Rx)
  | rep (a : Rx) (lo hi : Nat)
deriving DecidableEq, Repr

/-- Does a single character belong to a bracket class. -/
def clsMem (neg : Bool) (cs : List Char) (ranges : List (Char × Char)) (c : Char) : Bool :=
  let inn := cs.contains c || ranges.any (fun p => decide (p.1 ≤ c) && decide (c ≤ p.2))
  if neg then !inn else inn

/-- Greedy star: suffix lists in preference order (more iterations
first).  Each iteration must consume at least one character, as in real
engines; the fuel bounds the number of iterations and is instantiated
with the input length, which suffices. -/
def starRuns (one : List Char → List (List Char)) : Nat → List Char → List (List Char)
  | 0, s => [s]
  | fuel+1, s =>
    ((one s).filter (fun t => t.length < s.length)).flatMap (starRuns one fuel) ++ [s]

/-- Counted repetition a{lo,hi}, greedy: suffix lists in preference
order (more iterations first). -/
def repRuns (one : List Char → List (List Char)) : Nat → Nat → List Char → List (List Char)
  | lo, 0, s => if lo = 0 then [s] else []
  | lo, hi+1, s =>
    (one s).flatMap (repRuns one (lo-1) hi) ++ (if lo = 0 then [s] else [])

/-- Backtracking matcher: all remaining suffixes after matching a
prefix of s against r, in leftmost-first preference order. -/
def mrun : Rx → List Char → List (List Char)
  | .eps, s => [s]
  | .lit c, s =>
    match s with
    | [] => []
    | a :: t => if a = c then [t] else []
  | .anyc, s =>
    match s with
    | [] => []
    | _ :: t => [t]
  | .digit, s =>
    match s with
    | [] => []
    | a :: t => if isDigitC a then [t] else []
  | .wsp, s =>
    match s with
    | [] => []
    | a :: t => if isWsC a then [t] else []
  | .cls neg cs rs, s =>
    match s with
    | [] => []
    | a :: t => if clsMem neg cs rs a then [t] else []
  | .alt a b, s => mrun a s ++ mrun b s
  | .cat a b, s => (mrun a s).flatMap (fun t => mrun b t)
  | .star a, s => starRuns (fun t => mrun a t) s.length s
  | .rep a lo hi, s => repRuns (fun t => mrun a t) lo hi s

/-- Does r accept exactly the string s. -/
def rxAccepts (r : Rx) (s : List Char) : Bool :=
  (mrun r s).any (fun t => t.isEmpty)

/-- Preferred match of r at the start of s: the consumed prefix, if
any prefix matches. -/
def rxFindAt (r : Rx) (s : List Char) : Option (List Char) :=
  match (mrun r s).head? with
  | some t => some (s.take (s.length - t.length))
  | none => none

/-- Regex::find - leftmost-first search: scan start positions left to
right, return the matched text at the first position admitting a
match. -/
def rxFind (r : Rx) : List Char → Option (List Char)
  | [] => rxFindAt r []
  | c :: t =>
    match rxFindAt r (c :: t) with
    | some m => some m
    | none => rxFind r t

/-! ### Parsing regex source text (Regex::new)

Recursive-descent parser for the subset of the regex crate's syntax
that the generated patterns use.  A none result models a pattern that
Regex::new rejects - in particular a group opened with "(?" that is
not the non-capturing "(?:" (the crate rejects unknown inline flags
such as the "(?Z" emitted for Fixed::TimezoneOffsetZ).  Constructs
outside the modelled subset (anchors, unknown escapes, bare postfix
operators) are likewise rejected. -/

/-- Read a decimal number (at least one digit). -/
def readNat (s : List Char) : Option (Nat × List Char) :=
  let ds := s.takeWhile isDigitC
  if ds.isEmpty then none
  else some (ds.foldl (fun n c => n * 10 + (c.toNat - 48)) 0, s.dropWhile isDigitC)

/-- Parse the interior of a bracket class, up to the closing bracket. -/
def rxClsP : Nat → List Char → List Char → List (Char × Char) →
    Option ((List Char × List (Char × Char)) × List Char)
  | 0, _, _, _ => none
  | _+1, [], _, _ => none
  | _+1, ']' :: t, cs, rs => some ((cs.reverse, rs.reverse), t)
  | f+1, '\\' :: e :: t, cs, rs => rxClsP f t (e :: cs) rs
  | f+1, c :: '-' :: d :: t, cs, rs =>
    if d = ']' then rxClsP f (']' :: t) ('-' :: c :: cs) rs
    else rxClsP f t cs ((c, d) :: rs)
  | f+1, c :: t, cs, rs => rxClsP f t (c :: cs) rs

/-- Smart concatenation keeping ASTs small. -/
def rxCat (a b : Rx) : Rx :=
  match b with
  | .eps => a
  | _ => .cat a b

mutual

/-- Parse an alternation (the loosest-binding construct). -/
def rxAltP : Nat → List Char → Option (Rx × List Char)
  | 0, _ => none
  | f+1, s =>
    match rxCatP f s with
    | none => none
    | some (a, rest) =>
      match rest with
      | '|' :: rest2 =>
        match rxAltP f rest2 with
        | none => none
        | some (b, rest3) => some (.alt a b, rest3)
      | _ => some (a, rest)

/-- Parse a concatenation of postfixed atoms. -/
def rxCatP : Nat → List Char → Option (Rx × List Char)
  | 0, _ => none
  | f+1, s =>
    match s with
    | [] => some (.eps, [])
    | ')' :: _ => some (.eps, s)
    | '|' :: _ => some (.eps, s)
    | _ =>
      match rxAtomP f s with
      | none => none
      | some (a, rest) =>
        match rxPostP f a rest with
        | none => none
        | some (a2, rest2) =>
          match rxCatP f rest2 with
          | none => none
          | some (b, rest3) => some (rxCat a2 b, rest3)

/-- Parse one atom: a group, class, escape or plain character. -/
def rxAtomP : Nat → List Char → Option (Rx × List Char)
  | 0, _ => none
  | _+1, [] => none
  | f+1, c :: t =>
    match c with
    | '\\' =>
      match t with
      | [] => none
      | e :: t2 =>
        if e = 'd' then some (.digit, t2)
        else if e = 's' then some (.wsp, t2)
        else if e.isAlphanum then none
        else some (.lit e, t2)
    | '.' => some (.anyc, t)
    | '(' =>
      match t with
      | '?' :: ':' :: t2 =>
        (match rxAltP f t2 with
         | some (a, ')' :: t3) => some (a, t3)
         | _ => none)
      | '?' :: _ => none
      | _ =>
        (match rxAltP f t with
         | some (a, ')' :: t3) => some (a, t3)
         | _ => none)
    | '[' =>
      (match t with
       | '^' :: t2 =>
         (match rxClsP f t2 [] [] with
          | some ((cs, rs), t3) => some (.cls true cs rs, t3)
          | none => none)
       | _ =>
         (match rxClsP f t [] [] with
          | some ((cs, rs), t3) => some (.cls false cs rs, t3)
          | none => none))
    | '*' => none
    | '+' => none
    | '?' => none
    | '|' => none
    | ')' => none
    | '^' => none
    | '$' => none
    | _ =>
      if c = '{' ∨ c = '}' then none
      else some (.lit c, t)

/-- Parse an optional postfix operator on an atom. -/
def rxPostP : Nat → Rx → List Char → Option (Rx × List Char)
  | 0, _, _ => none
  | _+1, a, s =>
    match s with
    | '*' :: t => some (.star a, t)
    | '+' :: t => some (.cat a (.star a), t)
    | '?' :: t => some (.rep a 0 1, t)
    | '{' :: t =>
      (match readNat t with
       | none => none
       | some (n, t2) =>
         match t2 with
         | '}' :: t3 => some (.rep a n n, t3)
         | ',' :: t3 =>
           (match readNat t3 with
            | none => none
            | some (m, t4) =>
              match t4 with
              | '}' :: t5 => if n ≤ m then some (.rep a n m, t5) else none
              | _ => none)
         | _ => none)
    | _ => some (a, s)

end

/-- Regex::new - parse a whole regex source string; none models a
compile error (which the program converts to a panic via unwrap). -/
def rxParse (s : List Char) : Option Rx :=
  match rxAltP (8 * s.length + 32) s with
  | some (r, []) => some r
  | _ => none

/-! ### StrftimeItems: decomposing a format string into items

Model of chrono::format::strftime::StrftimeItems for the specifier
table of chrono 0.4: literal runs, whitespace runs, numeric specifiers
with optional padding flags, fixed specifiers and the composite
expansions of %c, %x, %X, %T, %D, %F, %R, %r, %v.  An unrecognized
specifier yields Item.Error, as in chrono. -/

/-- Items of the %H:%M:%S expansion (%T and %X). -/
def TIME_ITEMS : List Item :=
  [.Numeric .Hour .Zero, .Literal [':'], .Numeric .Minute .Zero,
   .Literal [':'], .Numeric .Second .Zero]

/-- Items of the %m/%d/%y expansion (%D and %x). -/
def DATE_ITEMS : List Item :=
  [.Numeric .Month .Zero, .Literal ['/'], .Numeric .Day .Zero,
   .Literal ['/'], .Numeric .YearMod100 .Zero]

/-- Items of the ctime expansion %a %b %e %H:%M:%S %Y (%c). -/
def CTIME_ITEMS : List Item :=
  [.Fixed .ShortWeekdayName, .Space [' '], .Fixed .ShortMonthName, .Space [' '],
   .Numeric .Day .Space, .Space [' '], .Numeric .Hour .Zero, .Literal [':'],
   .Numeric .Minute .Zero, .Literal [':'], .Numeric .Second .Zero, .Space [' '],
   .Numeric .Year .Zero]

/-- Single-character strftime specifier table (chrono 0.4). -/
def strfSpecItems : Char → Option (List Item)
  | 'Y' => some [.Numeric .Year .Zero]
  | 'C' => some [.Numeric .YearDiv100 .Zero]
  | 'y' => some [.Numeric .YearMod100 .Zero]
  | 'G' => some [.Numeric .IsoYear .Zero]
  | 'g' => some [.Numeric .IsoYearMod100 .Zero]
  | 'm' => some [.Numeric .Month .Zero]
  | 'd' => some [.Numeric .Day .Zero]
  | 'e' => some [.Numeric .Day .Space]
  | 'a' => some [.Fixed .ShortWeekdayName]
  | 'A' => some [.Fixed .LongWeekdayName]
  | 'b' => some [.Fixed .ShortMonthName]
  | 'h' => some [.Fixed .ShortMonthName]
  | 'B' => some [.Fixed .LongMonthName]
  | 'w' => some [.Numeric .NumDaysFromSun .Zero]
  | 'u' => some [.Numeric .WeekdayFromMon .Zero]
  | 'U' => some [.Numeric .WeekFromSun .Zero]
  | 'W' => some [.Numeric .WeekFromMon .Zero]
  | 'V' => some [.Numeric .IsoWeek .Zero]
  | 'j' => some [.Numeric .Ordinal .Zero]
  | 'H' => some [.Numeric .Hour .Zero]
  | 'k' => some [.Numeric .Hour .Space]
  | 'I' => some [.Numeric .Hour12 .Zero]
  | 'l' => some [.Numeric .Hour12 .Space]
  | 'M' => some [.Numeric .Minute .Zero]
  | 'S' => some [.Numeric .Second .Zero]
  | 'f' => some [.Numeric .Nanosecond .Zero]
  | 'p' => some [.Fixed .UpperAmPm]
  | 'P' => some [.Fixed .LowerAmPm]
  | 's' => some [.Numeric .Timestamp .None]
  | 'z' => some [.Fixed .TimezoneOffset]
  | 'Z' => some [.Fixed .TimezoneName]
  | '+' => some [.Fixed .RFC3339]
  | '%' => some [.Literal ['%']]
  | 'n' => some [.Space ['\n']]
  | 't' => some [.Space ['\t']]
  | 'c' => some CTIME_ITEMS
  | 'x' => some DATE_ITEMS
  | 'X' => some TIME_ITEMS
  | 'T' => some TIME_ITEMS
  | 'D' => some DATE_ITEMS
  | 'F' => some [.Numeric .Year .Zero, .Literal ['-'], .Numeric .Month .Zero,
                 .Literal ['-'], .Numeric .Day .Zero]
  | 'R' => some [.Numeric .Hour .Zero, .Literal [':'], .Numeric .Minute .Zero]
  | 'r' => some [.Numeric .Hour12 .Zero, .Literal [':'], .Numeric .Minute .Zero,
                 .Literal [':'], .Numeric .Second .Zero, .Space [' '], .Fixed .UpperAmPm]
  | 'v' => some [.Numeric .Day .Space, .Literal ['-'], .Fixed .ShortMonthName,
                 .Literal ['-'], .Numeric .Year .Zero]
  | _ => none

/-- Override the padding of a leading numeric item (padding flags
%-, %0, %_ apply to the numeric specifier that follows). -/
def padOverride (p : Pad) : List Item → List Item
  | .Numeric n _ :: rest => .Numeric n p :: rest
  | l => l

/-- StrftimeItems scanner with explicit fuel (structural recursion so
that the kernel can evaluate it; the fuel is instantiated with the
input length, which suffices since every step consumes a character). -/
def strftimeItemsF : Nat → List Char → List Item
  | 0, _ => []
  | _+1, [] => []
  | fuel+1, '%' :: rest =>
    match rest with
    | [] => [.Error]
    | ':' :: 'z' :: r => .Fixed .TimezoneOffsetColon :: strftimeItemsF fuel r
    | ':' :: r => .Error :: strftimeItemsF fuel r
    | '#' :: 'z' :: r => .Fixed .Internal :: strftimeItemsF fuel r
    | '#' :: r => .Error :: strftimeItemsF fuel r
    | '.' :: 'f' :: r => .Fixed .Nanosecond :: strftimeItemsF fuel r
    | '.' :: '3' :: 'f' :: r => .Fixed .Nanosecond3 :: strftimeItemsF fuel r
    | '.' :: '6' :: 'f' :: r => .Fixed .Nanosecond6 :: strftimeItemsF fuel r
    | '.' :: '9' :: 'f' :: r => .Fixed .Nanosecond9 :: strftimeItemsF fuel r
    | '.' :: r => .Error :: strftimeItemsF fuel r
    | '3' :: 'f' :: r => .Fixed .Internal :: strftimeItemsF fuel r
    | '6' :: 'f' :: r => .Fixed .Internal :: strftimeItemsF fuel r
    | '9' :: 'f' :: r => .Fixed .Internal :: strftimeItemsF fuel r
    | '-' :: c :: r => padOverride .None ((strfSpecItems c).getD [.Error]) ++ strftimeItemsF fuel r
    | '0' :: c :: r => padOverride .Zero ((strfSpecItems c).getD [.Error]) ++ strftimeItemsF fuel r
    | '_' :: c :: r => padOverride .Space ((strfSpecItems c).getD [.Error]) ++ strftimeItemsF fuel r
    | c :: r => (strfSpecItems c).getD [.Error] ++ strftimeItemsF fuel r
  | fuel+1, c :: rest =>
    if isWsC c then
      .Space (c :: rest.takeWhile isWsC) :: strftimeItemsF fuel (rest.dropWhile isWsC)
    else
      .Literal (c :: rest.takeWhile (fun x => !isWsC x && x ≠ '%'))
        :: strftimeItemsF fuel (rest.dropWhile (fun x => !isWsC x && x ≠ '%'))

/-- StrftimeItems::new(fmt) as a list of items. -/
def strftimeItems (l : List Char) : List Item := strftimeItemsF (l.length + 1) l

/-! ### convert_dt_spec_regex: compiling a format into a pattern -/

/-- Alternation of English short month names (const SHORT_MONTHS). -/
def SHORT_MONTHS : List Char := "Jan|Feb|Mar|Apr|May|Jun|Jul|Aug|Sep|Oct|Nov|Dec".toList

/-- Alternation of English long month names (const LONG_MONTHS). -/
def LONG_MONTHS : List Char :=
  "January|February|March|April|May|June|July|August|September|October|November|December".toList

/-- Alternation of English short weekday names (const SHORT_WEEKDAYS). -/
def SHORT_WEEKDAYS : List Char := "Mon|Tue|Wed|Thu|Fri|Sat|Sun".toList

/-- Alternation of English long weekday names (const LONG_WEEKDAYS). -/
def LONG_WEEKDAYS : List Char :=
  "Monday|Tuesday|Wednesday|Thursday|Friday|Saturday|Sunday".toList

/-- Lowercase am/pm alternation (const LOWER_AM_PM). -/
def LOWER_AM_PM : List Char := "am|pm".toList

/-- Uppercase AM/PM alternation (const UPPER_AM_PM). -/
def UPPER_AM_PM : List Char := "AM|PM".toList

/-- Regex fragment matching exactly two digits (const TWO_DIGITS). -/
def TWO_DIGITS : List Char := ['\\', 'd', '{', '2', '}']

/-- Regex fragment matching exactly three digits (const THREE_DIGITS). -/
def THREE_DIGITS : List Char := ['\\', 'd', '{', '3', '}']

/-- Regex fragment matching exactly four digits (const FOUR_DIGITS). -/
def FOUR_DIGITS : List Char := ['\\', 'd', '{', '4', '}']

/-- Regex fragment matching exactly six digits (const SIX_DIGITS). -/
def SIX_DIGITS : List Char := ['\\', 'd', '{', '6', '}']

/-- Regex fragment matching exactly nine digits (const NINE_DIGITS). -/
def NINE_DIGITS : List Char := ['\\', 'd', '{', '9', '}']

/-- Fragment matching a 9-, 6- or 3-digit group (const NANO_SECOND_REGEX). -/
def NANO_SECOND_REGEX : List Char :=
  ['(', '?', ':'] ++ NINE_DIGITS ++ ['|'] ++ SIX_DIGITS ++ ['|'] ++ THREE_DIGITS ++ [')']

/-- Digit width assigned to each numeric field kind by
convert_dt_spec_regex. -/
def numWidth : Numeric → Nat
  | .Year | .IsoYear => 4
  | .YearDiv100 | .YearMod100 | .IsoYearDiv100 | .IsoYearMod100 | .Month | .Day
  | .WeekFromSun | .WeekFromMon | .IsoWeek | .Hour | .Hour12 | .Minute | .Second => 2
  | .NumDaysFromSun | .WeekdayFromMon => 1
  | .Ordinal => 3
  | .Nanosecond => 9
  | .Timestamp => 1
  | .Internal => 0

/-- Decimal digits of a natural number. -/
def natRepr (n : Nat) : List Char := Nat.toDigits 10 n

/-- The exact-width digit fragment the code writes for a non-space
padded numeric item. -/
def exactFragStr (w : Nat) : List Char :=
  ['\\', 'd', '{'] ++ natRepr w ++ ['}']

/-- The space-padded fragment the code writes: up to width minus one
whitespace characters then one to width digits. -/
def spaceFragStr (w : Nat) : List Char :=
  ['\\', 's', '{', '0', ','] ++ natRepr (w - 1) ++ ['}'] ++
  ['\\', 'd', '{', '1', ','] ++ natRepr w ++ ['}']

/-- Regex fragment the code writes for a numeric item.  For
Pad::Space the Rust code computes width - 1 on a usize; when the width
is 0 (internal fields) that subtraction underflows and panics in a
debug build, modelled as none. -/
def numFrag (spec : Numeric) (pad : Pad) : Option (List Char) :=
  let w := numWidth spec
  if pad = Pad.Space then
    if w = 0 then none
    else some (spaceFragStr w)
  else
    some (exactFragStr w)

/-- Fragment matching a colon-form numeric offset ([+-]dd:dd). -/
def OFFSET_COLON_FRAG : List Char :=
  ['[', '+', '-', ']'] ++ TWO_DIGITS ++ [':'] ++ TWO_DIGITS

/-- Fragment matching a compact numeric offset ([+-]dddd). -/
def OFFSET_COMPACT_FRAG : List Char :=
  ['[', '+', '-', ']'] ++ TWO_DIGITS ++ TWO_DIGITS

/-- Regex fragment and flag effect of a fixed item, mirroring the
match in convert_dt_spec_regex; none models the todo! panics
(TimezoneName, Internal).  The TimezoneOffsetZ arm reproduces the
source verbatim, including its malformed group prefix "(?Z|". -/
def fixedFrag (f : Fixed) (naive zulu : Bool) : Option (List Char × Bool × Bool) :=
  match f with
  | .ShortMonthName => some (SHORT_MONTHS, naive, zulu)
  | .LongMonthName => some (LONG_MONTHS, naive, zulu)
  | .ShortWeekdayName => some (SHORT_WEEKDAYS, naive, zulu)
  | .LongWeekdayName => some (LONG_WEEKDAYS, naive, zulu)
  | .LowerAmPm => some (LOWER_AM_PM, naive, zulu)
  | .UpperAmPm => some (UPPER_AM_PM, naive, zulu)
  | .Nanosecond =>
    some (['\\', '.', '('] ++ THREE_DIGITS ++ ['|'] ++ SIX_DIGITS ++ ['|'] ++
          NINE_DIGITS ++ [')'], naive, zulu)
  | .Nanosecond3 => some (['\\', '.', '\\', 'd', '{', '3', '}'], naive, zulu)
  | .Nanosecond6 => some (['\\', '.', '\\', 'd', '{', '6', '}'], naive, zulu)
  | .Nanosecond9 => some (['\\', '.', '\\', 'd', '{', '9', '}'], naive, zulu)
  | .TimezoneName => none
  | .TimezoneOffsetColon => some (OFFSET_COLON_FRAG, false, zulu)
  | .TimezoneOffsetColonZ =>
    some (['(', '?', ':', 'Z', '|'] ++ OFFSET_COLON_FRAG ++ [')'], false, true)
  | .TimezoneOffset => some (OFFSET_COMPACT_FRAG, false, zulu)
  | .TimezoneOffsetZ =>
    some (['(', '?', 'Z', '|'] ++ OFFSET_COMPACT_FRAG ++ [')'], false, true)
  | .RFC2822 =>
    some (SHORT_WEEKDAYS ++ [','] ++ ['\\', 's', '+'] ++ TWO_DIGITS ++
          ['\\', 's', '+'] ++ SHORT_MONTHS ++ ['\\', 's', '+'] ++ FOUR_DIGITS ++
          ['\\', 's', '+'] ++ TWO_DIGITS ++ [':'] ++ TWO_DIGITS ++ [':'] ++
          TWO_DIGITS ++ [' '] ++ ['[', '+', '-', ']'] ++ TWO_DIGITS ++ TWO_DIGITS,
          false, zulu)
  | .RFC3339 =>
    some (FOUR_DIGITS ++ ['-'] ++ TWO_DIGITS ++ ['-'] ++ TWO_DIGITS ++ ['T'] ++
          TWO_DIGITS ++ [':'] ++ TWO_DIGITS ++ [':'] ++ TWO_DIGITS ++
          ['\\', '.'] ++ NANO_SECOND_REGEX, false, zulu)
  | .Internal => none

/-- The fmt::Write sink of the Rust code: writing a fragment into a
String buffer.  The error channel of the type (std::fmt::Error) is
present but writing to a String cannot fail, so the result is always
ok - exactly the situation of the Rust code. -/
def wr (buf s : List Char) : Except Unit (List Char) := Except.ok (buf ++ s)

/-- Process one format item of the compiler loop: appends the item's
regex fragment to the buffer and updates the flags.  none models the
todo! panics (timezone-name, internal and error items) and the
debug-build underflow of numeric space padding at width 0. -/
def emitOne (it : Item) (buf : List Char) (naive zulu : Bool) :
    Option (Except Unit (List Char × Bool × Bool)) :=
  match it with
  | .Literal s => some ((wr buf s).map (fun b => (b, naive, zulu)))
  | .Space _ => some ((wr buf ['\\', 's', '*']).map (fun b => (b, naive, zulu)))
  | .Numeric spec pad =>
    match numFrag spec pad with
    | none => none
    | some fr => some ((wr buf fr).map (fun b => (b, naive, zulu)))
  | .Fixed f =>
    match fixedFrag f naive zulu with
    | none => none
    | some (fr, n2, z2) => some ((wr buf fr).map (fun b => (b, n2, z2)))
  | .Error => none

/-- The compiler loop over the decomposed items, threading the buffer
and the is_naive / zulu flags. -/
def emitItems : List Item → List Char → Bool → Bool →
    Option (Except Unit (List Char × Bool × Bool))
  | [], buf, naive, zulu => some (.ok (buf, naive, zulu))
  | it :: rest, buf, naive, zulu =>
    match emitOne it buf naive zulu with
    | none => none
    | some (.error e) => some (.error e)
    | some (.ok (buf2, n2, z2)) => emitItems rest buf2 n2 z2

/-- The compiled artifact of a format specification (struct
DateTimePattern): source format, emitted regex source text, parsed
regex, and the naive/zulu flags. -/
structure DateTimePattern where
  format : List Char
  regexSrc : List Char
  regex : Rx
  is_naive : Bool
  zulu : Bool
deriving DecidableEq, Repr

instance {ε α : Type} [DecidableEq ε] [DecidableEq α] : DecidableEq (Except ε α) := fun x y =>
  match x, y with
  | .ok a, .ok b =>
    if h : a = b then .isTrue (by rw [h]) else .isFalse (by simp [h])
  | .error a, .error b =>
    if h : a = b then .isTrue (by rw [h]) else .isFalse (by simp [h])
  | .ok _, .error _ => .isFalse (by simp)
  | .error _, .ok _ => .isFalse (by simp)

/-- Seed of the zulu flag: fmt.ends_with("Z") && !fmt.ends_with("%Z"). -/
def zuluSeed (fmt : List Char) : Bool :=
  ['Z'].isSuffixOf fmt && !(['%', 'Z'].isSuffixOf fmt)

/-- convert_dt_spec_regex with the item decomposition supplied
explicitly (the decomposer is chrono's, external to the program).
none models a panic: a todo! arm or Regex::new(..).unwrap() on a
malformed pattern.  some (.error e) would be a returned Err of the
declared std::fmt::Error channel. -/
def convertFromItems (fmt : List Char) (items : List Item) :
    Option (Except Unit DateTimePattern) :=
  match emitItems items [] true (zuluSeed fmt) with
  | none => none
  | some (.error e) => some (.error e)
  | some (.ok (buf, naive, zulu)) =>
    match rxParse buf with
    | none => none
    | some r => some (.ok ⟨fmt, buf, r, naive, zulu⟩)

/-- fn convert_dt_spec_regex(fmt) of the Rust source. -/
def convert_dt_spec_regex (fmt : List Char) : Option (Except Unit DateTimePattern) :=
  convertFromItems fmt (strftimeItems fmt)

/-! ### Proleptic Gregorian calendar arithmetic

Standard civil-from-days / days-from-civil conversions (Euclidean
division, so era arithmetic is exact for all years); chrono's calendar
is the same proleptic Gregorian calendar. -/

/-- Days since 1970-01-01 of a civil date. -/
def daysFromCivil (y m d : Int) : Int :=
  let y2 := if m ≤ 2 then y - 1 else y
  let era := Int.ediv y2 400
  let yoe := y2 - era * 400
  let mp := Int.emod (m + 9) 12
  let doy := Int.ediv (153 * mp + 2) 5 + d - 1
  let doe := yoe * 365 + Int.ediv yoe 4 - Int.ediv yoe 100 + doy
  era * 146097 + doe - 719468

/-- Civil date of a count of days since 1970-01-01. -/
def civilFromDays (z0 : Int) : Int × Int × Int :=
  let z := z0 + 719468
  let era := Int.ediv z 146097
  let doe := z - era * 146097
  let yoe := Int.ediv (doe - Int.ediv doe 1460 + Int.ediv doe 36524 - Int.ediv doe 146096) 365
  let y := yoe + era * 400
  let doy := doe - (365 * yoe + Int.ediv yoe 4 - Int.ediv yoe 100)
  let mp := Int.ediv (5 * doy + 2) 153
  let d := doy - Int.ediv (153 * mp + 2) 5 + 1
  let m := if mp < 10 then mp + 3 else mp - 9
  (if m ≤ 2 then y + 1 else y, m, d)

/-- Gregorian leap year. -/
def isLeap (y : Int) : Bool :=
  (Int.emod y 4 = 0 && Int.emod y 100 ≠ 0) || Int.emod y 400 = 0

/-- Number of days in a month. -/
def daysInMonth (y m : Int) : Int :=
  if m = 2 then (if isLeap y then 29 else 28)
  else if m = 4 ∨ m = 6 ∨ m = 9 ∨ m = 11 then 30
  else 31

/-- Day of year, 1-based. -/
def dayOfYear (y m d : Int) : Int :=
  daysFromCivil y m d - daysFromCivil y 1 1 + 1

/-- Weekday with Monday = 0 (1970-01-01 was a Thursday). -/
def weekdayFromDays (z : Int) : Int := Int.emod (z + 3) 7

/-- A civil date-time with nanoseconds. -/
structure Civil where
  y : Int
  m : Int
  d : Int
  hh : Int
  mi : Int
  ss : Int
  nano : Int
deriving DecidableEq, Repr

/-- Seconds since the epoch of a civil date-time (nanoseconds not
included). -/
def civilToSec (c : Civil) : Int :=
  daysFromCivil c.y c.m c.d * 86400 + c.hh * 3600 + c.mi * 60 + c.ss

/-- Civil date-time of an epoch second count (carrying a given
nanosecond component along). -/
def secToCivil (t nano : Int) : Civil :=
  let days := Int.ediv t 86400
  let sod := Int.emod t 86400
  let ymd := civilFromDays days
  ⟨ymd.1, ymd.2.1, ymd.2.2, Int.ediv sod 3600, Int.ediv (Int.emod sod 3600) 60,
   Int.emod sod 60, nano⟩

/-! ### chrono parsing (parse_from_str)

Model of chrono::format::parse driven by the same item lists, filling
a Parsed record field by field, then resolving it to a civil
date-time.  A parse error (chrono Err) is none.  Leap seconds and the
iso-week/week-number cross-checks of chrono's resolution are outside
the modelled range (no format used by a theorem involves them). -/

/-- The chrono Parsed accumulator (the fields the program's formats
can set). -/
structure Parsed where
  year : Option Int := none
  yearDiv100 : Option Int := none
  yearMod100 : Option Int := none
  isoyear : Option Int := none
  isoyearDiv100 : Option Int := none
  isoyearMod100 : Option Int := none
  month : Option Int := none
  day : Option Int := none
  ordinal : Option Int := none
  weekday : Option Int := none
  weekFromSun : Option Int := none
  weekFromMon : Option Int := none
  isoweek : Option Int := none
  hourDiv12 : Option Int := none
  hourMod12 : Option Int := none
  minute : Option Int := none
  second : Option Int := none
  nanosecond : Option Int := none
  timestamp : Option Int := none
  offsetSec : Option Int := none
deriving DecidableEq, Repr

/-- Set a Parsed field: setting a field twice to conflicting values is
chrono's IMPOSSIBLE error. -/
def setF (old : Option Int) (v : Int) : Option (Option Int) :=
  match old with
  | none => some (some v)
  | some w => if w = v then some (some v) else none

/-- scan::number - read 1 to maxW digits (greedy, stopping at maxW). -/
def scanDigits (maxW : Nat) (s : List Char) : Option (Int × List Char) :=
  let ds := (s.takeWhile isDigitC).take maxW
  if ds.isEmpty then none
  else some ((ds.foldl (fun n c => n * 10 + (c.toNat - 48)) 0 : Nat), s.drop ds.length)

/-- Numeric scan of chrono's parser: leading whitespace is skipped; a
signed field with an explicit sign may use any number of digits,
otherwise at most the field width. -/
def scanNum (signed : Bool) (w : Nat) (s0 : List Char) : Option (Int × List Char) :=
  let s := s0.dropWhile isWsC
  match signed, s with
  | true, '-' :: t => (scanDigits t.length t).map (fun p => (-p.1, p.2))
  | true, '+' :: t => scanDigits t.length t
  | _, _ => scanDigits w s

/-- Case-insensitive consumption of an expected word. -/
def eatCaseIns : List Char → List Char → Option (List Char)
  | [], s => some s
  | _ :: _, [] => none
  | p :: ps, c :: cs => if p.toLower = c.toLower then eatCaseIns ps cs else none

/-- English month names, short form. -/
def monthNamesShort : List (List Char) :=
  ["Jan", "Feb", "Mar", "Apr", "May", "Jun", "Jul", "Aug", "Sep", "Oct", "Nov", "Dec"].map
    String.toList

/-- English month names, long form. -/
def monthNamesLong : List (List Char) :=
  ["January", "February", "March", "April", "May", "June", "July", "August",
   "September", "October", "November", "December"].map String.toList

/-- English weekday names, short form, Monday first. -/
def weekdayNamesShort : List (List Char) :=
  ["Mon", "Tue", "Wed", "Thu", "Fri", "Sat", "Sun"].map String.toList

/-- English weekday names, long form, Monday first. -/
def weekdayNamesLong : List (List Char) :=
  ["Monday", "Tuesday", "Wednesday", "Thursday", "Friday", "Saturday", "Sunday"].map
    String.toList

/-- Match one name of a list case-insensitively, returning its index. -/
def matchNameIdx (names : List (List Char)) (s : List Char) : Option (Nat × List Char) :=
  (names.enum.filterMap (fun p =>
    (eatCaseIns p.2 s).map (fun rest => (p.1, rest)))).head?

/-- Scan a numeric utc offset, optionally accepting a literal Z;
permissive about the colon, like chrono's scanner. -/
def scanOffset (allowZ : Bool) (s0 : List Char) : Option (Int × List Char) :=
  let s := s0.dropWhile isWsC
  match s with
  | 'Z' :: t => if allowZ then some (0, t) else none
  | 'z' :: t => if allowZ then some (0, t) else none
  | sg :: h1 :: h2 :: rest =>
    if (sg = '+' ∨ sg = '-') ∧ isDigitC h1 ∧ isDigitC h2 then
      let h : Int := (h1.toNat - 48) * 10 + (h2.toNat - 48)
      let rest2 := match rest with
        | ':' :: r => r
        | r => r
      match rest2 with
      | m1 :: m2 :: r2 =>
        if isDigitC m1 ∧ isDigitC m2 then
          let mv : Int := (m1.toNat - 48) * 10 + (m2.toNat - 48)
          let v := h * 3600 + mv * 60
          some (if sg = '-' then -v else v, r2)
        else none
      | _ => none
    else none
  | _ => none

/-- Scan an optional fractional-second part: a dot followed by up to
nine digits, scaled to nanoseconds (extra digits are consumed and
dropped, as chrono does). -/
def scanFrac (s : List Char) : Option (Int × List Char) :=
  match s with
  | '.' :: t =>
    let ds := t.takeWhile isDigitC
    if ds.isEmpty then none
    else
      let d9 := ds.take 9
      let v : Nat := d9.foldl (fun n c => n * 10 + (c.toNat - 48)) 0
      let scale : Nat := 10 ^ (9 - d9.length)
      some ((v * scale : Nat), t.drop ds.length)
  | _ => none

/-- Scan an exactly-n-digit fractional-second part after a dot. -/
def scanFracN (n : Nat) (s : List Char) : Option (Int × List Char) :=
  match s with
  | '.' :: t =>
    let ds := t.takeWhile isDigitC
    if ds.length < n then none
    else
      let dn := ds.take n
      let v : Nat := dn.foldl (fun m c => m * 10 + (c.toNat - 48)) 0
      some ((v * 10 ^ (9 - n) : Nat), t.drop n)
  | _ => none

/-- Parse the text against one numeric item, setting the matching
Parsed field. -/
def parseNumeric (spec : Numeric) (st : Parsed) (s : List Char) :
    Option (Parsed × List Char) :=
  let go (signed : Bool) (w : Nat) (get : Parsed → Option Int)
      (put : Parsed → Option Int → Parsed) (ok : Int → Bool) :
      Option (Parsed × List Char) :=
    match scanNum signed w s with
    | none => none
    | some (v, rest) =>
      if ok v then (setF (get st) v).map (fun f => (put st f, rest)) else none
  match spec with
  | .Year => go true 4 (·.year) (fun p f => { p with year := f }) (fun _ => true)
  | .YearDiv100 => go false 2 (·.yearDiv100) (fun p f => { p with yearDiv100 := f }) (fun _ => true)
  | .YearMod100 => go false 2 (·.yearMod100) (fun p f => { p with yearMod100 := f }) (fun v => 0 ≤ v ∧ v ≤ 99)
  | .IsoYear => go true 4 (·.isoyear) (fun p f => { p with isoyear := f }) (fun _ => true)
  | .IsoYearDiv100 => go false 2 (·.isoyearDiv100) (fun p f => { p with isoyearDiv100 := f }) (fun _ => true)
  | .IsoYearMod100 => go false 2 (·.isoyearMod100) (fun p f => { p with isoyearMod100 := f }) (fun v => 0 ≤ v ∧ v ≤ 99)
  | .Month => go false 2 (·.month) (fun p f => { p with month := f }) (fun v => 1 ≤ v ∧ v ≤ 12)
  | .Day => go false 2 (·.day) (fun p f => { p with day := f }) (fun v => 1 ≤ v ∧ v ≤ 31)
  | .WeekFromSun => go false 2 (·.weekFromSun) (fun p f => { p with weekFromSun := f }) (fun v => 0 ≤ v ∧ v ≤ 53)
  | .WeekFromMon => go false 2 (·.weekFromMon) (fun p f => { p with weekFromMon := f }) (fun v => 0 ≤ v ∧ v ≤ 53)
  | .IsoWeek => go false 2 (·.isoweek) (fun p f => { p with isoweek := f }) (fun v => 1 ≤ v ∧ v ≤ 53)
  | .NumDaysFromSun =>
    match scanNum false 1 s with
    | none => none
    | some (v, rest) =>
      if 0 ≤ v ∧ v ≤ 6 then
        (setF st.weekday (Int.emod (v + 6) 7)).map (fun f => ({ st with weekday := f }, rest))
      else none
  | .WeekdayFromMon =>
    match scanNum false 1 s with
    | none => none
    | some (v, rest) =>
      if 1 ≤ v ∧ v ≤ 7 then
        (setF st.weekday (v - 1)).map (fun f => ({ st with weekday := f }, rest))
      else none
  | .Ordinal => go false 3 (·.ordinal) (fun p f => { p with ordinal := f }) (fun v => 1 ≤ v ∧ v ≤ 366)
  | .Hour =>
    match scanNum false 2 s with
    | none => none
    | some (v, rest) =>
      if 0 ≤ v ∧ v ≤ 23 then
        match setF st.hourDiv12 (Int.ediv v 12) with
        | none => none
        | some fd =>
          (setF st.hourMod12 (Int.emod v 12)).map
            (fun fm => ({ st with hourDiv12 := fd, hourMod12 := fm }, rest))
      else none
  | .Hour12 =>
    match scanNum false 2 s with
    | none => none
    | some (v, rest) =>
      if 1 ≤ v ∧ v ≤ 12 then
        (setF st.hourMod12 (Int.emod v 12)).map (fun f => ({ st with hourMod12 := f }, rest))
      else none
  | .Minute => go false 2 (·.minute) (fun p f => { p with minute := f }) (fun v => 0 ≤ v ∧ v ≤ 59)
  | .Second => go false 2 (·.second) (fun p f => { p with second := f }) (fun v => 0 ≤ v ∧ v ≤ 60)
  | .Nanosecond => go false 9 (·.nanosecond) (fun p f => { p with nanosecond := f }) (fun v => 0 ≤ v ∧ v ≤ 999999999)
  | .Timestamp => go true s.length (·.timestamp) (fun p f => { p with timestamp := f }) (fun _ => true)
  | .Internal => none

/-- Parse the text against one fixed item. -/
def parseFixed (f : Fixed) (st : Parsed) (s : List Char) :
    Option (Parsed × List Char) :=
  match f with
  | .ShortMonthName =>
    match matchNameIdx monthNamesShort s with
    | none => none
    | some (i, rest) => (setF st.month (i + 1)).map (fun fv => ({ st with month := fv }, rest))
  | .LongMonthName =>
    match matchNameIdx monthNamesLong s with
    | some (i, rest) => (setF st.month (i + 1)).map (fun fv => ({ st with month := fv }, rest))
    | none =>
      match matchNameIdx monthNamesShort s with
      | none => none
      | some (i, rest) => (setF st.month (i + 1)).map (fun fv => ({ st with month := fv }, rest))
  | .ShortWeekdayName =>
    match matchNameIdx weekdayNamesShort s with
    | none => none
    | some (i, rest) => (setF st.weekday i).map (fun fv => ({ st with weekday := fv }, rest))
  | .LongWeekdayName =>
    match matchNameIdx weekdayNamesLong s with
    | some (i, rest) => (setF st.weekday i).map (fun fv => ({ st with weekday := fv }, rest))
    | none =>
      match matchNameIdx weekdayNamesShort s with
      | none => none
      | some (i, rest) => (setF st.weekday i).map (fun fv => ({ st with weekday := fv }, rest))
  | .LowerAmPm | .UpperAmPm =>
    (match s with
     | a :: b :: rest =>
       if a.toLower = 'a' ∧ b.toLower = 'm' then
         (setF st.hourDiv12 0).map (fun fv => ({ st with hourDiv12 := fv }, rest))
       else if a.toLower = 'p' ∧ b.toLower = 'm' then
         (setF st.hourDiv12 1).map (fun fv => ({ st with hourDiv12 := fv }, rest))
       else none
     | _ => none)
  | .Nanosecond =>
    (match scanFrac s with
     | some (v, rest) => (setF st.nanosecond v).map (fun fv => ({ st with nanosecond := fv }, rest))
     | none => some (st, s))
  | .Nanosecond3 =>
    (match scanFracN 3 s with
     | some (v, rest) => (setF st.nanosecond v).map (fun fv => ({ st with nanosecond := fv }, rest))
     | none => none)
  | .Nanosecond6 =>
    (match scanFracN 6 s with
     | some (v, rest) => (setF st.nanosecond v).map (fun fv => ({ st with nanosecond := fv }, rest))
     | none => none)
  | .Nanosecond9 =>
    (match scanFracN 9 s with
     | some (v, rest) => (setF st.nanosecond v).map (fun fv => ({ st with nanosecond := fv }, rest))
     | none => none)
  | .TimezoneName =>
    let w := s.takeWhile (fun c => !isWsC c)
    if w.isEmpty then none else some (st, s.drop w.length)
  | .TimezoneOffsetColon | .TimezoneOffset =>
    (match scanOffset false s with
     | none => none
     | some (v, rest) => (setF st.offsetSec v).map (fun fv => ({ st with offsetSec := fv }, rest)))
  | .TimezoneOffsetColonZ | .TimezoneOffsetZ | .Internal =>
    (match scanOffset true s with
     | none => none
     | some (v, rest) => (setF st.offsetSec v).map (fun fv => ({ st with offsetSec := fv }, rest)))
  | .RFC2822 =>
    -- Sat, 01 Jul 2023 10:52:37 +0200 (weekday optional, seconds optional)
    let s1 :=
      match matchNameIdx weekdayNamesShort s with
      | some (i, r1) =>
        (match r1 with
         | ',' :: r2 => some (some (Int.ofNat i), r2.dropWhile isWsC)
         | _ => none)
      | none => some (none, s)
    match s1 with
    | none => none
    | some (wd, r2) =>
      match scanDigits 2 r2 with
      | none => none
      | some (dayv, r3) =>
        match matchNameIdx monthNamesShort (r3.dropWhile isWsC) with
        | none => none
        | some (mi0, r4) =>
          match scanDigits 4 (r4.dropWhile isWsC) with
          | none => none
          | some (yv, r5) =>
            match scanDigits 2 (r5.dropWhile isWsC) with
            | none => none
            | some (hv, r6) =>
              match r6 with
              | ':' :: r7 =>
                (match scanDigits 2 r7 with
                 | none => none
                 | some (miv, r8) =>
                   let st2 :=
                     match r8 with
                     | ':' :: r9 =>
                       (match scanDigits 2 r9 with
                        | none => none
                        | some (sv, r10) => some (sv, r10))
                     | _ => some (0, r8)
                   match st2 with
                   | none => none
                   | some (sv, r10) =>
                     match scanOffset false r10 with
                     | none => none
                     | some (offv, r11) =>
                       if 1 ≤ dayv ∧ dayv ≤ 31 ∧ hv ≤ 23 ∧ miv ≤ 59 ∧ sv ≤ 60 then
                         let stA :=
                           { st with
                               weekday := wd
                               day := some dayv
                               month := some (mi0 + 1)
                               year := some yv
                               hourDiv12 := some (Int.ediv hv 12)
                               hourMod12 := some (Int.emod hv 12)
                               minute := some miv
                               second := some sv
                               offsetSec := some offv }
                         some (stA, r11)
                       else none)
              | _ => none
  | .RFC3339 =>
    -- 2023-06-01T12:00:00.123+02:00 / ...Z
    match scanDigits 4 s with
    | none => none
    | some (yv, r1) =>
      match r1 with
      | '-' :: r2 =>
        (match scanDigits 2 r2 with
         | none => none
         | some (mv, r3) =>
           match r3 with
           | '-' :: r4 =>
             (match scanDigits 2 r4 with
              | none => none
              | some (dv, r5) =>
                match r5 with
                | tsep :: r6 =>
                  if tsep = 'T' ∨ tsep = 't' ∨ tsep = ' ' then
                    match scanDigits 2 r6 with
                    | none => none
                    | some (hv, r7) =>
                      match r7 with
                      | ':' :: r8 =>
                        (match scanDigits 2 r8 with
                         | none => none
                         | some (miv, r9) =>
                           match r9 with
                           | ':' :: r10 =>
                             (match scanDigits 2 r10 with
                              | none => none
                              | some (sv, r11) =>
                                let fr :=
                                  match scanFrac r11 with
                                  | some (nv, r12) => (nv, r12)
                                  | none => (0, r11)
                                match scanOffset true fr.2 with
                                | none => none
                                | some (offv, r13) =>
                                  if 1 ≤ mv ∧ mv ≤ 12 ∧ 1 ≤ dv ∧ dv ≤ 31 ∧ hv ≤ 23 ∧
                                      miv ≤ 59 ∧ sv ≤ 60 then
                                    let stA :=
                                      { st with
                                          year := some yv
                                          month := some mv
                                          day := some dv
                                          hourDiv12 := some (Int.ediv hv 12)
                                          hourMod12 := some (Int.emod hv 12)
                                          minute := some miv
                                          second := some sv
                                          nanosecond := some fr.1
                                          offsetSec := some offv }
                                    some (stA, r13)
                                  else none)
                           | _ => none)
                      | _ => none
                  else none
                | _ => none)
           | _ => none)
      | _ => none

/-- Parse the text against one format item. -/
def parseItem (st : Parsed) (it : Item) (s : List Char) : Option (Parsed × List Char) :=
  match it with
  | .Literal lit => if lit.isPrefixOf s then some (st, s.drop lit.length) else none
  | .Space _ => some (st, s.dropWhile isWsC)
  | .Numeric spec _ => parseNumeric spec st s
  | .Fixed f => parseFixed f st s
  | .Error => none

/-- chrono's parse(): run all items in order; trailing unconsumed
input is the TOO_LONG error. -/
def runParse : List Item → Parsed → List Char → Option Parsed
  | [], st, s => if s.isEmpty then some st else none
  | it :: rest, st, s =>
    match parseItem st it s with
    | none => none
    | some (st2, s2) => runParse rest st2 s2

/-- Agreement of an optional redundant field with a computed value. -/
def okF (o : Option Int) (v : Int) : Bool :=
  match o with
  | none => true
  | some w => w = v

/-- Resolve the year from the direct and century/short fields. -/
def resolveYear (y yd ym : Option Int) : Option Int :=
  match y, yd, ym with
  | some v, od, om =>
    if okF od (Int.ediv v 100) && okF om (Int.emod v 100) then some v else none
  | none, some d, some m2 => some (d * 100 + m2)
  | none, none, some m2 => some (if m2 < 70 then 2000 + m2 else 1900 + m2)
  | none, some _, none => none
  | none, none, none => none

/-- chrono resolution of the date-time fields (the paths the
program's formats exercise: calendar date, ordinal date, timestamp;
weekday and ordinal cross-checked when present). -/
def Parsed.toCivil (st : Parsed) : Option Civil :=
  match st.timestamp with
  | some ts =>
    let c := secToCivil ts (st.nanosecond.getD 0)
    if okF (resolveYear st.year st.yearDiv100 st.yearMod100) c.y && okF st.month c.m &&
       okF st.day c.d && okF st.hourDiv12 (Int.ediv c.hh 12) &&
       okF st.hourMod12 (Int.emod c.hh 12) && okF st.minute c.mi && okF st.second c.ss &&
       okF st.weekday (weekdayFromDays (daysFromCivil c.y c.m c.d)) then some c else none
  | none =>
    match resolveYear st.year st.yearDiv100 st.yearMod100 with
    | none => none
    | some y =>
      let md : Option (Int × Int) :=
        match st.month, st.day with
        | some m, some d =>
          if 1 ≤ m ∧ m ≤ 12 ∧ 1 ≤ d ∧ d ≤ daysInMonth y m then
            (match st.ordinal with
             | some o => if o = dayOfYear y m d then some (m, d) else none
             | none => some (m, d))
          else none
        | none, none =>
          (match st.ordinal with
           | some o =>
             if 1 ≤ o ∧ o ≤ (if isLeap y then 366 else 365) then
               let md2 := civilFromDays (daysFromCivil y 1 1 + o - 1)
               some (md2.2.1, md2.2.2)
             else none
           | none => none)
        | _, _ => none
      match md with
      | none => none
      | some (m, d) =>
        if okF st.weekday (weekdayFromDays (daysFromCivil y m d)) then
          match st.hourDiv12, st.hourMod12, st.minute with
          | some hd, some hm, some mi =>
            if 0 ≤ hd ∧ hd ≤ 1 ∧ 0 ≤ hm ∧ hm ≤ 11 ∧ 0 ≤ mi ∧ mi ≤ 59 ∧
               0 ≤ st.second.getD 0 ∧ st.second.getD 0 ≤ 59 ∧
               0 ≤ st.nanosecond.getD 0 ∧ st.nanosecond.getD 0 ≤ 999999999 then
              some ⟨y, m, d, hd * 12 + hm, mi, st.second.getD 0, st.nanosecond.getD 0⟩
            else none
          | _, _, _ => none
        else none

/-- NaiveDateTime::parse_from_str(s, fmt): full consumption, then
resolution to a civil date-time (any parsed offset is ignored). -/
def naive_parse_from_str (s fmt : List Char) : Option Civil :=
  match runParse (strftimeItems fmt) {} s with
  | none => none
  | some st => st.toCivil

/-- DateTime::parse_from_str(s, fmt): like the naive parse but an
offset is required; the result is the instant in epoch seconds plus
nanoseconds. -/
def dt_parse_from_str (s fmt : List Char) : Option (Int × Int) :=
  match runParse (strftimeItems fmt) {} s with
  | none => none
  | some st =>
    match st.toCivil, st.offsetSec with
    | some c, some off => some (civilToSec c - off, c.nano)
    | _, _ => none

/-! ### chrono formatting (DelayedFormat::to_string) -/

/-- Render an integer left-padded to a width with the item's padding
mode. -/
def padInt (pad : Pad) (w : Nat) (v : Int) : List Char :=
  let ds := natRepr v.natAbs
  let body :=
    if w ≤ ds.length then ds
    else match pad with
      | .None => ds
      | .Zero => List.replicate (w - ds.length) '0' ++ ds
      | .Space => List.replicate (w - ds.length) ' ' ++ ds
  (if v < 0 then ['-'] else []) ++ body

/-- Two-digit zero-padded rendering of a nonnegative value. -/
def two0 (v : Int) : List Char := padInt .Zero 2 v

/-- Numeric offset rendering with a colon, as the %:z directive. -/
def offColon (off : Int) : List Char :=
  let a := off.natAbs
  (if off < 0 then '-' else '+') :: (two0 (a / 3600) ++ [':'] ++ two0 ((a % 3600) / 60))

/-- Numeric offset rendering without a colon, as the %z directive. -/
def offCompact (off : Int) : List Char :=
  let a := off.natAbs
  (if off < 0 then '-' else '+') :: (two0 (a / 3600) ++ two0 ((a % 3600) / 60))

/-- ISO week-date year and week of a civil date. -/
def isoWeekOf (y m d : Int) : Int × Int :=
  let ord := dayOfYear y m d
  let wd := weekdayFromDays (daysFromCivil y m d)
  let w := Int.ediv (ord - (wd + 1) + 10) 7
  let weeksIn (yy : Int) : Int :=
    let p := Int.emod (yy + Int.ediv yy 4 - Int.ediv yy 100 + Int.ediv yy 400) 7
    let p1 := Int.emod (yy - 1 + Int.ediv (yy-1) 4 - Int.ediv (yy-1) 100 + Int.ediv (yy-1) 400) 7
    52 + (if p = 4 ∨ p1 = 3 then 1 else 0)
  if w < 1 then (y - 1, weeksIn (y - 1))
  else if w > weeksIn y then (y + 1, 1)
  else (y, w)

/-- Auto-precision fractional rendering of the dot-form %.f: empty
for zero nanoseconds, otherwise a dot and 3, 6 or 9 digits. -/
def fracAuto (nano : Int) : List Char :=
  if nano = 0 then []
  else if Int.emod nano 1000000 = 0 then '.' :: padInt .Zero 3 (Int.ediv nano 1000000)
  else if Int.emod nano 1000 = 0 then '.' :: padInt .Zero 6 (Int.ediv nano 1000)
  else '.' :: padInt .Zero 9 nano

/-- Render one numeric item of a local civil date-time. -/
def renderNumeric (spec : Numeric) (pad : Pad) (c : Civil) (sec : Int) : List Char :=
  let wd := weekdayFromDays (daysFromCivil c.y c.m c.d)
  match spec with
  | .Year => padInt pad 4 c.y
  | .YearDiv100 => padInt pad 2 (Int.ediv c.y 100)
  | .YearMod100 => padInt pad 2 (Int.emod c.y 100)
  | .IsoYear => padInt pad 4 (isoWeekOf c.y c.m c.d).1
  | .IsoYearDiv100 => padInt pad 2 (Int.ediv (isoWeekOf c.y c.m c.d).1 100)
  | .IsoYearMod100 => padInt pad 2 (Int.emod (isoWeekOf c.y c.m c.d).1 100)
  | .Month => padInt pad 2 c.m
  | .Day => padInt pad 2 c.d
  | .WeekFromSun => padInt pad 2 (Int.ediv (dayOfYear c.y c.m c.d + 6 - Int.emod (wd + 1) 7) 7)
  | .WeekFromMon => padInt pad 2 (Int.ediv (dayOfYear c.y c.m c.d + 6 - wd) 7)
  | .IsoWeek => padInt pad 2 (isoWeekOf c.y c.m c.d).2
  | .NumDaysFromSun => padInt pad 1 (Int.emod (wd + 1) 7)
  | .WeekdayFromMon => padInt pad 1 (wd + 1)
  | .Ordinal => padInt pad 3 (dayOfYear c.y c.m c.d)
  | .Hour => padInt pad 2 c.hh
  | .Hour12 => padInt pad 2 (Int.emod (c.hh + 11) 12 + 1)
  | .Minute => padInt pad 2 c.mi
  | .Second => padInt pad 2 c.ss
  | .Nanosecond => padInt pad 9 c.nano
  | .Timestamp => padInt pad 1 sec
  | .Internal => []

/-- Render one fixed item of a local civil date-time at a given
offset. -/
def renderFixed (f : Fixed) (c : Civil) (off : Int) : List Char :=
  let wd := weekdayFromDays (daysFromCivil c.y c.m c.d)
  let mName (names : List (List Char)) : List Char := (names.getD (c.m - 1).toNat [])
  let wName (names : List (List Char)) : List Char := (names.getD wd.toNat [])
  match f with
  | .ShortMonthName => mName monthNamesShort
  | .LongMonthName => mName monthNamesLong
  | .ShortWeekdayName => wName weekdayNamesShort
  | .LongWeekdayName => wName weekdayNamesLong
  | .LowerAmPm => if c.hh < 12 then ['a', 'm'] else ['p', 'm']
  | .UpperAmPm => if c.hh < 12 then ['A', 'M'] else ['P', 'M']
  | .Nanosecond => fracAuto c.nano
  | .Nanosecond3 => '.' :: padInt .Zero 3 (Int.ediv c.nano 1000000)
  | .Nanosecond6 => '.' :: padInt .Zero 6 (Int.ediv c.nano 1000)
  | .Nanosecond9 => '.' :: padInt .Zero 9 c.nano
  | .TimezoneName => offColon off
  | .TimezoneOffsetColon => offColon off
  | .TimezoneOffsetColonZ => if off = 0 then ['Z'] else offColon off
  | .TimezoneOffset => offCompact off
  | .TimezoneOffsetZ => if off = 0 then ['Z'] else offCompact off
  | .Internal => offColon off
  | .RFC2822 =>
    wName weekdayNamesShort ++ [',', ' '] ++ two0 c.d ++ [' '] ++
    mName monthNamesShort ++ [' '] ++ padInt .Zero 4 c.y ++ [' '] ++
    two0 c.hh ++ [':'] ++ two0 c.mi ++ [':'] ++ two0 c.ss ++ [' '] ++ offCompact off
  | .RFC3339 =>
    padInt .Zero 4 c.y ++ ['-'] ++ two0 c.m ++ ['-'] ++ two0 c.d ++ ['T'] ++
    two0 c.hh ++ [':'] ++ two0 c.mi ++ [':'] ++ two0 c.ss ++ fracAuto c.nano ++
    offColon off

/-- Render a list of items; an Item.Error makes the Display
implementation fail, which to_string turns into a panic (none). -/
def renderItems (items : List Item) (c : Civil) (off sec : Int) : Option (List Char) :=
  match items with
  | [] => some []
  | it :: rest =>
    let frag : Option (List Char) :=
      match it with
      | .Literal s => some s
      | .Space s => some s
      | .Numeric spec pad => some (renderNumeric spec pad c sec)
      | .Fixed f => some (renderFixed f c off)
      | .Error => none
    match frag, renderItems rest c off sec with
    | some a, some b => some (a ++ b)
    | _, _ => none

/-- DateTime.format(fmt).to_string() for an instant (epoch seconds
plus nanoseconds) viewed in the zone of a fixed local offset. -/
def formatInstant (tzOff : Int) (sec nano : Int) (fmt : List Char) : Option (List Char) :=
  renderItems (strftimeItems fmt) (secToCivil (sec + tzOff) nano) tzOff sec

/-! ### The rewrite engine (fn parse_timestamp) -/

/-- Leftmost index of an occurrence of m (empty m occurs at 0). -/
def findIdxL (m : List Char) : List Char → Option Nat
  | [] => if m.isEmpty then some 0 else none
  | c :: t => if m.isPrefixOf (c :: t) then some 0 else (findIdxL m t).map (· + 1)

/-- Fueled worker for replaceAll (the fuel, instantiated with the
string length, bounds the number of replacements; each one consumes
at least one character of the remainder). -/
def replaceAllF : Nat → List Char → List Char → List Char → List Char
  | 0, s, _, _ => s
  | fuel+1, s, m, r =>
    match findIdxL m s with
    | none => s
    | some i => s.take i ++ r ++ replaceAllF fuel (s.drop (i + m.length)) m r

/-- str::replace - replace every non-overlapping occurrence of m in
s by r, scanning left to right in one pass (an empty m matches at
every character boundary, as in Rust). -/
def replaceAll (s m r : List Char) : List Char :=
  if m.isEmpty then r ++ s.flatMap (fun c => c :: r)
  else replaceAllF (s.length + 1) s m r

/-- The conversion applied to the first match m of a pattern, i.e. the
body of the if within parse_timestamp.  In the naive branch the text
is parsed against the untrimmed pat.format, interpreted as UTC and
rendered with the (Z-trimmed when zulu) format plus "%:z"; in the
offset-aware branch it is parsed and rendered with pat.format.  none
models the unwrap panic on a parse failure. -/
def processMatch (tzOff : Int) (pat : DateTimePattern) (m : List Char) :
    Option (List Char) :=
  if pat.is_naive then
    let fmtR := if pat.zulu then pat.format.dropLast else pat.format
    match naive_parse_from_str m pat.format with
    | none => none
    | some c => formatInstant tzOff (civilToSec c) c.nano (fmtR ++ ['%', ':', 'z'])
  else
    match dt_parse_from_str m pat.format with
    | none => none
    | some (sec, nano) => formatInstant tzOff sec nano pat.format

/-- fn parse_timestamp(line, regex_list) of the Rust source, with the
local zone made explicit as a fixed offset.  Returns some of the
output line, or none when the Rust code would panic (unwrap of a
failed parse). -/
def parse_timestamp (tzOff : Int) (line : List Char) :
    List DateTimePattern → Option (List Char)
  | [] => some line
  | pat :: rest =>
    match rxFind pat.regex line with
    | none => parse_timestamp tzOff line rest
    | some m =>
      match processMatch tzOff pat m with
      | none => none
      | some dt => some (replaceAll line m dt)

/-! ### Pattern-set construction in main -/

/-- The built-in default format list (const DEFAULT_FORMATS). -/
def DEFAULT_FORMATS : List (List Char) :=
  ["%+", "%c", "%Y-%m-%dT%H:%M:%SZ", "%Y-%m-%dT%H:%M:%S%z"].map String.toList

/-- The set of format strings main builds: a HashSet of the
user-supplied formats, extended with the defaults.  A Rust HashSet
has no specified iteration order, so only the set itself is
determined. -/
def buildFormatSet (user : List (List Char)) : Finset (List Char) :=
  (user ++ DEFAULT_FORMATS).toFinset

/-- A possible iteration order of the format HashSet: some duplicate-
free enumeration of its elements.  main maps the compiler over such
an enumeration to obtain regex_list. -/
def validEnum (l : List (List Char)) (user : List (List Char)) : Prop :=
  l.Nodup ∧ ∀ x, x ∈ l ↔ x ∈ buildFormatSet user

/-! ### Concrete patterns and extraction helpers used in theorems -/

/-- Extract the compiled pattern of a successful compilation (junk
value otherwise; every use is guarded by an isOkPat fact). -/
def getPat (o : Option (Except Unit DateTimePattern)) : DateTimePattern :=
  match o with
  | some (.ok p) => p
  | _ => ⟨[], [], .eps, true, false⟩

/-- Did compilation return Ok (neither panic nor Err)? -/
def isOkPat (o : Option (Except Unit DateTimePattern)) : Bool :=
  match o with
  | some (.ok _) => true
  | _ => false

/-- The zulu default format string. -/
def fmtZ : List Char := "%Y-%m-%dT%H:%M:%SZ".toList

/-- The compiled zulu default pattern. -/
def patZdef : DateTimePattern := getPat (convert_dt_spec_regex fmtZ)

/-- A user-style day/month format string. -/
def fmtDMY : List Char := "%d/%m/%Y %H:%M".toList

/-- The compiled day/month pattern. -/
def patDMY : DateTimePattern := getPat (convert_dt_spec_regex fmtDMY)

/-! ### Helper lemmas -/

/-- emitOne never produces a returned Err: each arm is either a todo!
panic (none) or a successful write (writing into a String cannot
fail). -/
theorem emitOne_shape (it : Item) (buf : List Char) (n z : Bool) :
    emitOne it buf n z = none ∨ ∃ v, emitOne it buf n z = some (.ok v) := by
  cases it with
  | Literal s => exact Or.inr ⟨_, rfl⟩
  | Space s => exact Or.inr ⟨_, rfl⟩
  | Numeric spec pad =>
    simp only [emitOne]
    cases numFrag spec pad with
    | none => exact Or.inl rfl
    | some fr => exact Or.inr ⟨_, rfl⟩
  | Fixed f =>
    simp only [emitOne]
    cases hf : fixedFrag f n z with
    | none => exact Or.inl rfl
    | some p =>
      obtain ⟨fr, n2, z2⟩ := p
      exact Or.inr ⟨_, rfl⟩
  | Error => exact Or.inl rfl

/-- The compiler loop never produces a returned Err. -/
theorem emitItems_shape : ∀ (items : List Item) (buf : List Char) (n z : Bool),
    emitItems items buf n z = none ∨ ∃ v, emitItems items buf n z = some (.ok v) := by
  intro items
  induction items with
  | nil => intro buf n z; exact Or.inr ⟨_, rfl⟩
  | cons it rest ih =>
    intro buf n z
    simp only [emitItems]
    rcases emitOne_shape it buf n z with h | ⟨v, h⟩
    · rw [h]; exact Or.inl rfl
    · obtain ⟨b2, n2, z2⟩ := v
      rw [h]
      exact ih b2 n2 z2

/-- Reaching an item whose arm panics makes the whole loop panic,
wherever the item sits. -/
theorem emitItems_append_bad (bad : Item)
    (hbad : ∀ buf n z, emitOne bad buf n z = none) :
    ∀ (pre post : List Item) (buf : List Char) (n z : Bool),
    emitItems (pre ++ bad :: post) buf n z = none := by
  intro pre
  induction pre with
  | nil =>
    intro post buf n z
    simp only [List.nil_append, emitItems, hbad]
  | cons it rest ih =>
    intro post buf n z
    simp only [List.cons_append, emitItems]
    rcases emitOne_shape it buf n z with h | ⟨v, h⟩
    · rw [h]
    · obtain ⟨b2, n2, z2⟩ := v
      rw [h]
      exact ih post b2 n2 z2

/-- The pattern that the rewrite engine acts on for a line: the first
of the list whose regex finds a match, together with the matched
text. -/
def FirstMatch (pats : List DateTimePattern) (pat : DateTimePattern)
    (m line : List Char) : Prop :=
  ∃ l1 l2, pats = l1 ++ pat :: l2 ∧ (∀ q ∈ l1, rxFind q.regex line = none) ∧
    rxFind pat.regex line = some m

/-- parse_timestamp acts through processMatch on the first matching
pattern. -/
theorem parse_timestamp_first (tzOff : Int) (line : List Char)
    (pats : List DateTimePattern) (pat : DateTimePattern) (m : List Char)
    (h : FirstMatch pats pat m line) :
    parse_timestamp tzOff line pats =
      match processMatch tzOff pat m with
      | none => none
      | some dt => some (replaceAll line m dt) := by
  obtain ⟨l1, l2, rfl, hnone, hfind⟩ := h
  induction l1 with
  | nil => simp only [List.nil_append, parse_timestamp, hfind]
  | cons q t ih =>
    have hq : rxFind q.regex line = none := hnone q (List.mem_cons_self _ _)
    simp only [List.cons_append, parse_timestamp, hq]
    exact ih (fun r hr => hnone r (List.mem_cons_of_mem _ hr))

/-- The single-character-class step function (the matcher of one
digit or whitespace class). -/
def clsRun (P : Char → Bool) : List Char → List (List Char)
  | [] => []
  | a :: t => if P a then [t] else []

theorem mrun_digit_eq : (fun t => mrun .digit t) = clsRun isDigitC := by
  funext t
  cases t <;> rfl

theorem mrun_wsp_eq : (fun t => mrun .wsp t) = clsRun isWsC := by
  funext t
  cases t <;> rfl

/-- Membership characterization of a counted repetition of a
character class: the results are exactly the suffixes obtained by
dropping between lo and hi class characters. -/
theorem repRuns_clsRun_mem (P : Char → Bool) :
    ∀ (hi lo : Nat) (s t : List Char),
    t ∈ repRuns (clsRun P) lo hi s ↔
      ∃ k, lo ≤ k ∧ k ≤ hi ∧ k ≤ s.length ∧ (s.take k).all P = true ∧ t = s.drop k := by
  intro hi
  induction hi with
  | zero =>
    intro lo s t
    simp only [repRuns]
    constructor
    · intro h
      have hlo : lo = 0 := by
        by_contra hne
        simp [hne] at h
      subst hlo
      simp only [if_pos rfl, if_true, List.mem_singleton] at h
      exact ⟨0, Nat.le_refl 0, Nat.le_refl 0, Nat.zero_le _, by simp, by simp [h]⟩
    · rintro ⟨k, hk1, hk2, _, _, rfl⟩
      have hk0 : k = 0 := Nat.le_zero.mp hk2
      subst hk0
      have hlo : lo = 0 := Nat.le_zero.mp hk1
      simp [hlo]
  | succ hi ih =>
    intro lo s t
    simp only [repRuns, List.mem_append, List.mem_flatMap]
    constructor
    · rintro (⟨u, hu, ht⟩ | h)
      · cases s with
        | nil => simp [clsRun] at hu
        | cons c s' =>
          simp only [clsRun] at hu
          by_cases hc : P c = true
          · rw [if_pos hc] at hu
            simp only [List.mem_singleton] at hu
            rw [hu] at ht
            obtain ⟨k, hk1, hk2, hk3, hall, rfl⟩ := (ih (lo - 1) s' t).mp ht
            refine ⟨k + 1, by omega, by omega, by simpa using hk3, ?_, by simp⟩
            simp [List.take_succ_cons, List.all_cons, hc, hall]
          · rw [if_neg hc] at hu
            simp at hu
      · have hlo : lo = 0 := by
          by_contra hne
          simp [hne] at h
        subst hlo
        simp only [if_pos rfl, if_true, List.mem_singleton] at h
        exact ⟨0, Nat.le_refl 0, Nat.zero_le _, Nat.zero_le _, by simp, by simp [h]⟩
    · rintro ⟨k, hk1, hk2, hk3, hall, rfl⟩
      cases k with
      | zero =>
        have hlo : lo = 0 := Nat.le_zero.mp hk1
        subst hlo
        right
        simp
      | succ k' =>
        left
        cases s with
        | nil => simp at hk3
        | cons c s' =>
          simp only [List.take_succ_cons, List.all_cons, Bool.and_eq_true] at hall
          refine ⟨s', ?_, ?_⟩
          · simp [clsRun, hall.1]
          · exact (ih (lo - 1) s' (s'.drop k')).mpr
              ⟨k', by omega, by omega, by simpa using hk3, hall.2, by simp⟩

/-- Acceptance in terms of the matcher's result list. -/
theorem rxAccepts_iff_nil_mem (r : Rx) (s : List Char) :
    rxAccepts r s = true ↔ [] ∈ mrun r s := by
  simp only [rxAccepts, List.any_eq_true]
  constructor
  · rintro ⟨t, ht, he⟩
    cases t with
    | nil => exact ht
    | cons a b => simp [List.isEmpty] at he
  · intro h
    exact ⟨[], h, rfl⟩

/-- The fragment for an exact width accepts exactly the strings of
that many digits. -/
theorem accepts_rep_digit (w : Nat) (s : List Char) :
    rxAccepts (.rep .digit w w) s = true ↔ s.length = w ∧ s.all isDigitC = true := by
  rw [rxAccepts_iff_nil_mem]
  show [] ∈ repRuns (fun t => mrun .digit t) w w s ↔ _
  rw [mrun_digit_eq, repRuns_clsRun_mem]
  constructor
  · rintro ⟨k, hk1, hk2, hk3, hall, hdrop⟩
    have hlen : s.length ≤ k := by
      by_contra hlt
      push_neg at hlt
      have := congrArg List.length hdrop
      simp [List.length_drop] at this
      omega
    have hk : k = s.length := Nat.le_antisymm hk3 hlen
    subst hk
    rw [List.take_length] at hall
    exact ⟨by omega, hall⟩
  · rintro ⟨hl, hall⟩
    exact ⟨w, Nat.le_refl w, Nat.le_refl w, by omega, by rw [← hl, List.take_length]; exact hall,
      by rw [← hl, List.drop_length]⟩

/-- The space-padded fragment accepts up to width minus one leading
whitespace characters followed by one to width digits. -/
theorem accepts_space_frag (w : Nat) (s : List Char) :
    rxAccepts (.cat (.rep .wsp 0 (w - 1)) (.rep .digit 1 w)) s = true ↔
      ∃ a b, s = a ++ b ∧ a.all isWsC = true ∧ a.length ≤ w - 1 ∧
        b.all isDigitC = true ∧ 1 ≤ b.length ∧ b.length ≤ w := by
  rw [rxAccepts_iff_nil_mem]
  show [] ∈ (mrun (.rep .wsp 0 (w-1)) s).flatMap (fun t => mrun (.rep .digit 1 w) t) ↔ _
  simp only [List.mem_flatMap]
  constructor
  · rintro ⟨u, hu, hnil⟩
    have hu2 := hu
    rw [show mrun (.rep .wsp 0 (w-1)) s = repRuns (fun t => mrun .wsp t) 0 (w-1) s from rfl,
      mrun_wsp_eq, repRuns_clsRun_mem] at hu2
    obtain ⟨k, _, hk2, hk3, hall, rfl⟩ := hu2
    have hnil2 := hnil
    rw [show mrun (.rep .digit 1 w) (s.drop k) = repRuns (fun t => mrun .digit t) 1 w (s.drop k) from rfl,
      mrun_digit_eq, repRuns_clsRun_mem] at hnil2
    obtain ⟨j, hj1, hj2, hj3, hjall, hjdrop⟩ := hnil2
    have hjlen : (s.drop k).length ≤ j := by
      have h0 := congrArg List.length hjdrop
      simp only [List.length_nil, List.length_drop] at h0
      simp only [List.length_drop]
      omega
    have hj : j = (s.drop k).length := Nat.le_antisymm hj3 hjlen
    subst hj
    rw [List.take_length] at hjall
    exact ⟨s.take k, s.drop k, (List.take_append_drop k s).symm, hall,
      le_trans (by rw [List.length_take]; exact Nat.min_le_left _ _) hk2, hjall,
      hj1, hj2⟩
  · rintro ⟨a, b, rfl, hA, hAl, hB, hBl1, hBl2⟩
    refine ⟨b, ?_, ?_⟩
    · rw [show mrun (.rep .wsp 0 (w-1)) (a ++ b) = repRuns (fun t => mrun .wsp t) 0 (w-1) (a ++ b) from rfl,
        mrun_wsp_eq, repRuns_clsRun_mem]
      refine ⟨a.length, Nat.zero_le _, hAl, by simp, ?_, ?_⟩
      · rw [List.take_left]; exact hA
      · rw [List.drop_left]
    · rw [show mrun (.rep .digit 1 w) b = repRuns (fun t => mrun .digit t) 1 w b from rfl,
        mrun_digit_eq, repRuns_clsRun_mem]
      exact ⟨b.length, hBl1, hBl2, Nat.le_refl _, by rw [List.take_length]; exact hB,
        by rw [List.drop_length]⟩

/-! ### Concrete lines used by the claim theorems -/

/-- A line whose timestamp substring matches the zulu regex but has
an impossible month. -/
def lineBad : List Char := "2023-13-01T12:00:00Z".toList

/-- The spec's first example line. -/
def lineZ : List Char := "INFO 2023-06-01T12:00:00Z something happened".toList

/-- The matched substring of lineZ. -/
def mZ : List Char := "2023-06-01T12:00:00Z".toList

/-- The rewritten lineZ at local offset -04:00. -/
def outZ : List Char := "INFO 2023-06-01T08:00:00-04:00 something happened".toList

/-- A line containing the identical timestamp text twice. -/
def line5 : List Char := "t1=2023-01-01T00:00:00Z t2=2023-01-01T00:00:00Z".toList

/-- The matched substring of line5 (its first occurrence is the one
the regex finds). -/
def m5 : List Char := "2023-01-01T00:00:00Z".toList

/-- line5 rewritten at local offset -01:00: both occurrences changed
in one pass. -/
def out5 : List Char :=
  "t1=2022-12-31T23:00:00-01:00 t2=2022-12-31T23:00:00-01:00".toList

/-- The user format list of the pattern-set counterexample. -/
def user0 : List (List Char) := [fmtDMY]

/-- A possible HashSet iteration order putting the default format
ahead of the user format. -/
def enum0 : List (List Char) :=
  ["%+".toList, fmtDMY, "%c".toList, fmtZ, "%Y-%m-%dT%H:%M:%S%z".toList]

/-! ### Claim theorems -/

/-- C1: the claim says a per-line ParseError must not abort the run
and the affected line is emitted unchanged.  The code unwraps the
parse result, so a substring that matches the regex but fails to
parse (here month 13) panics: the embedded parse_timestamp returns
none (abort), not the line. -/
theorem C1_parse_error_aborts_run :
    isOkPat (convert_dt_spec_regex fmtZ) = true ∧
    rxFind patZdef.regex lineBad = some lineBad ∧
    naive_parse_from_str lineBad patZdef.format = none ∧
    parse_timestamp 0 lineBad [patZdef] = none := by
  refine ⟨by decide, by decide, by decide, by decide⟩

/-- C2 counterexample: the format collection is a Rust HashSet, whose
iteration order is arbitrary; enum0 is a duplicate-free enumeration
of exactly the collected set in which the built-in default format
precedes the user-supplied one, refuting the claimed user-first
priority order. -/
theorem C2_hashset_order_counterexample :
    validEnum enum0 user0 ∧ fmtDMY ∈ user0 ∧ "%+".toList ∈ DEFAULT_FORMATS ∧
    "%+".toList ∉ user0 ∧
    List.indexOf "%+".toList enum0 < List.indexOf fmtDMY enum0 := by
  refine ⟨⟨by decide, fun x => ?_⟩, by decide, by decide, by decide, by decide⟩
  simp only [buildFormatSet, List.mem_toFinset, user0, DEFAULT_FORMATS, enum0, fmtDMY, fmtZ,
    List.mem_append, List.mem_cons, List.mem_singleton, List.map_cons, List.map_nil,
    List.not_mem_nil, or_false]
  tauto

/-- C2 amended: construction collects the user formats and the
defaults into a hash set, so duplicate specification strings are
deduplicated (supplying a spec twice has no effect on the set) and
the set holds exactly the user and default formats; but the order in
which main iterates the set is not determined, so no user-ahead-of-
default priority is guaranteed. -/
theorem C2_dedup_and_membership :
    (∀ (u : List (List Char)) (s : List Char),
        buildFormatSet (s :: s :: u) = buildFormatSet (s :: u)) ∧
    (∀ (u : List (List Char)) (x : List Char),
        x ∈ buildFormatSet u ↔ (x ∈ u ∨ x ∈ DEFAULT_FORMATS)) := by
  constructor
  · intro u s
    simp [buildFormatSet]
  · intro u x
    simp [buildFormatSet]

/-- C3 counterexample: the naive branch parses the matched text
against the untrimmed source format, not the Z-trimmed one the claim
describes: parsing mZ against the trimmed format fails (trailing Z
unconsumed), yet the engine still rewrites the line successfully. -/
theorem C3_trimmed_parse_counterexample :
    patZdef.is_naive = true ∧ patZdef.zulu = true ∧
    rxFind patZdef.regex lineZ = some mZ ∧
    naive_parse_from_str mZ (patZdef.format.dropLast) = none ∧
    naive_parse_from_str mZ patZdef.format = some ⟨2023, 6, 1, 12, 0, 0, 0⟩ ∧
    parse_timestamp (-14400) lineZ [patZdef] = some outZ := by
  refine ⟨by decide, by decide, by decide, by decide, by decide, by decide⟩

/-- C3 amended: for the first matching pattern with is_naive, the
engine parses the matched substring against the untrimmed source
format, interprets the value as UTC, converts it by the local offset,
and renders it using the Z-trimmed (when zulu) format with an
explicit numeric-offset suffix appended, substituting the result into
the line. -/
theorem C3_naive_branch_amended :
    ∀ (tzOff : Int) (line : List Char) (pats : List DateTimePattern)
      (pat : DateTimePattern) (m : List Char),
      FirstMatch pats pat m line → pat.is_naive = true →
      parse_timestamp tzOff line pats =
        match naive_parse_from_str m pat.format with
        | none => none
        | some c =>
          (formatInstant tzOff (civilToSec c) c.nano
            ((if pat.zulu then pat.format.dropLast else pat.format) ++ ['%', ':', 'z'])).map
            (fun dt => replaceAll line m dt) := by
  intro tzOff line pats pat m hfm hnaive
  rw [parse_timestamp_first tzOff line pats pat m hfm]
  simp only [processMatch, hnaive, if_true]
  rcases hn : naive_parse_from_str m pat.format with _ | c
  · simp [hn]
  · rcases hf : formatInstant tzOff (civilToSec c) c.nano
        ((if pat.zulu then pat.format.dropLast else pat.format) ++ ['%', ':', 'z']) with _ | dt
    · simp [hn, hf]
    · simp [hn, hf]

/-- C3 amended, witnessed at the spec's first example. -/
theorem C3_naive_branch_amended_witness :
    parse_timestamp (-14400) lineZ [patZdef] =
      match naive_parse_from_str mZ patZdef.format with
      | none => none
      | some c =>
        (formatInstant (-14400) (civilToSec c) c.nano
          ((if patZdef.zulu then patZdef.format.dropLast else patZdef.format) ++
            ['%', ':', 'z'])).map (fun dt => replaceAll lineZ mZ dt) :=
  C3_naive_branch_amended (-14400) lineZ [patZdef] patZdef mZ
    ⟨[], [], rfl, by simp, by decide⟩ (by decide)

/-- C4: for the compact or-Z timezone directive the code emits the
fragment (?Z|[+-]dd dd) - a group opened with "(?Z", which is not
valid group syntax, so Regex::new fails and the unwrap panics
(compilation returns none), while the colon or-Z variant compiles and
accepts Z or an offset as the claim describes. -/
theorem C4_offsetZ_fragment_invalid :
    emitItems [Item.Fixed Fixed.TimezoneOffsetZ] [] true false =
      some (Except.ok (['(', '?', 'Z', '|'] ++ OFFSET_COMPACT_FRAG ++ [')'], false, true)) ∧
    rxParse (['(', '?', 'Z', '|'] ++ OFFSET_COMPACT_FRAG ++ [')']) = none ∧
    convertFromItems ['x'] [Item.Fixed Fixed.TimezoneOffsetZ] = none ∧
    isOkPat (convertFromItems ['x'] [Item.Fixed Fixed.TimezoneOffsetColonZ]) = true ∧
    (getPat (convertFromItems ['x'] [Item.Fixed Fixed.TimezoneOffsetColonZ])).is_naive = false ∧
    (getPat (convertFromItems ['x'] [Item.Fixed Fixed.TimezoneOffsetColonZ])).zulu = true ∧
    rxAccepts (getPat (convertFromItems ['x'] [Item.Fixed Fixed.TimezoneOffsetColonZ])).regex
      ['Z'] = true ∧
    rxAccepts (getPat (convertFromItems ['x'] [Item.Fixed Fixed.TimezoneOffsetColonZ])).regex
      "+05:30".toList = true := by
  refine ⟨by decide, by decide, by decide, by decide, by decide, by decide, by decide, by decide⟩

/-- C5 counterexample: literal text is written into the regex
unescaped, so the dot of the format %H.%M is emitted verbatim and the
compiled matcher accepts "12X34", where a non-dot character stands at
the literal's position - the literal is not matched exactly. -/
theorem C5_unescaped_literal_counterexample :
    strftimeItems "%H.%M".toList =
      [Item.Numeric Numeric.Hour Pad.Zero, Item.Literal ['.'],
       Item.Numeric Numeric.Minute Pad.Zero] ∧
    (getPat (convert_dt_spec_regex "%H.%M".toList)).regexSrc =
      TWO_DIGITS ++ ['.'] ++ TWO_DIGITS ∧
    rxAccepts (getPat (convert_dt_spec_regex "%H.%M".toList)).regex "12X34".toList = true := by
  refine ⟨by decide, by decide, by decide⟩

/-- C5 amended: the compiler copies literal text into the regex
verbatim, with no escaping, so regex metacharacters inside a literal
keep their regex meaning. -/
theorem C5_literal_verbatim_amended :
    ∀ (s buf : List Char) (n z : Bool),
      emitOne (Item.Literal s) buf n z = some (Except.ok (buf ++ s, n, z)) :=
  fun _ _ _ _ => rfl

/-- C6: the digit widths per numeric field kind, the emitted
fragments (exact width for zero or no padding; for space padding, up
to width minus one spaces then one to width digits), and the
acceptance behavior of those fragments under the regex semantics. -/
theorem C6_numeric_widths :
    (numWidth .Year = 4 ∧ numWidth .IsoYear = 4) ∧
    (numWidth .YearDiv100 = 2 ∧ numWidth .YearMod100 = 2 ∧ numWidth .IsoYearDiv100 = 2 ∧
      numWidth .IsoYearMod100 = 2 ∧ numWidth .Month = 2 ∧ numWidth .Day = 2 ∧
      numWidth .WeekFromSun = 2 ∧ numWidth .WeekFromMon = 2 ∧ numWidth .IsoWeek = 2 ∧
      numWidth .Hour = 2 ∧ numWidth .Hour12 = 2 ∧ numWidth .Minute = 2 ∧
      numWidth .Second = 2) ∧
    (numWidth .NumDaysFromSun = 1 ∧ numWidth .WeekdayFromMon = 1) ∧
    numWidth .Ordinal = 3 ∧ numWidth .Nanosecond = 9 ∧ numWidth .Timestamp = 1 ∧
    numWidth .Internal = 0 ∧
    (∀ spec pad, pad ≠ Pad.Space → numFrag spec pad = some (exactFragStr (numWidth spec))) ∧
    (∀ spec, 1 ≤ numWidth spec → numFrag spec Pad.Space = some (spaceFragStr (numWidth spec))) ∧
    (∀ w, w ≤ 9 → rxParse (exactFragStr w) = some (.rep .digit w w)) ∧
    (∀ w, 1 ≤ w → w ≤ 9 → rxParse (spaceFragStr w) =
        some (.cat (.rep .wsp 0 (w - 1)) (.rep .digit 1 w))) ∧
    (∀ w s, rxAccepts (.rep .digit w w) s = true ↔ s.length = w ∧ s.all isDigitC = true) ∧
    (∀ w s, rxAccepts (.cat (.rep .wsp 0 (w - 1)) (.rep .digit 1 w)) s = true ↔
        ∃ a b, s = a ++ b ∧ a.all isWsC = true ∧ a.length ≤ w - 1 ∧
          b.all isDigitC = true ∧ 1 ≤ b.length ∧ b.length ≤ w) := by
  refine ⟨by decide, by decide, by decide, by decide, by decide, by decide, by decide,
    ?_, ?_, by decide, by decide, accepts_rep_digit, accepts_space_frag⟩
  · intro spec pad hpad
    cases pad with
    | Space => exact absurd rfl hpad
    | Zero => rfl
    | None => rfl
  · intro spec hw
    cases spec <;> first
      | rfl
      | (exact absurd hw (by decide))

/-- C6 witness: the day-of-month field at both paddings, with the
parsed fragments. -/
theorem C6_numeric_widths_witness :
    numFrag Numeric.Day Pad.Zero = some (exactFragStr (numWidth Numeric.Day)) ∧
    numFrag Numeric.Day Pad.Space = some (spaceFragStr (numWidth Numeric.Day)) ∧
    rxParse (exactFragStr 2) = some (.rep .digit 2 2) ∧
    rxParse (spaceFragStr 2) = some (.cat (.rep .wsp 0 1) (.rep .digit 1 2)) := by
  obtain ⟨-, -, -, -, -, -, -, hG, hH, hI, hJ, -, -⟩ := C6_numeric_widths
  exact ⟨hG Numeric.Day Pad.Zero (by decide), hH Numeric.Day (by decide),
    hI 2 (by decide), hJ 2 (by decide) (by decide)⟩

/-- C7 counterexample: compiling a specification with the
timezone-name directive does not return an error value; the todo!
arm panics, modelled as none. -/
theorem C7_todo_panic_counterexample :
    strftimeItems "%Z".toList = [Item.Fixed Fixed.TimezoneName] ∧
    convert_dt_spec_regex "%Z".toList = none ∧
    isOkPat (convert_dt_spec_regex "%Z".toList) = false := by
  refine ⟨by decide, by decide, by decide⟩

/-- C7 amended: for every item sequence containing a timezone-name,
internal or error directive, compilation panics (todo!) instead of
returning an error value, wherever the directive sits. -/
theorem C7_unsupported_panics_amended :
    ∀ (pre post : List Item) (buf : List Char) (n z : Bool),
      emitItems (pre ++ Item.Fixed Fixed.TimezoneName :: post) buf n z = none ∧
      emitItems (pre ++ Item.Fixed Fixed.Internal :: post) buf n z = none ∧
      emitItems (pre ++ Item.Error :: post) buf n z = none :=
  fun pre post buf n z =>
    ⟨emitItems_append_bad (Item.Fixed Fixed.TimezoneName) (fun _ _ _ => rfl) pre post buf n z,
     emitItems_append_bad (Item.Fixed Fixed.Internal) (fun _ _ _ => rfl) pre post buf n z,
     emitItems_append_bad Item.Error (fun _ _ _ => rfl) pre post buf n z⟩

/-- C8: substitution is textual: the output is str::replace of the
whole line, replacing every non-overlapping occurrence of the matched
text with the rendered result in one pass; on the concrete
two-occurrence line both occurrences are rewritten identically. -/
theorem C8_textual_replacement :
    (∀ (tzOff : Int) (line : List Char) (pats : List DateTimePattern)
        (pat : DateTimePattern) (m dt : List Char),
        FirstMatch pats pat m line → processMatch tzOff pat m = some dt →
        parse_timestamp tzOff line pats = some (replaceAll line m dt)) ∧
    rxFind patZdef.regex line5 = some m5 ∧
    parse_timestamp (-3600) line5 [patZdef] = some out5 := by
  refine ⟨?_, by decide, by decide⟩
  intro tzOff line pats pat m dt hfm hpm
  rw [parse_timestamp_first tzOff line pats pat m hfm, hpm]

/-- C8 witness at the user-format example line. -/
theorem C8_textual_replacement_witness :
    parse_timestamp 7200 "01/02/2023 08:30 request served".toList [patDMY] =
      some (replaceAll "01/02/2023 08:30 request served".toList
        "01/02/2023 08:30".toList "01/02/2023 10:30+02:00".toList) :=
  C8_textual_replacement.1 7200 _ [patDMY] patDMY _ _
    ⟨[], [], rfl, by simp, by decide⟩ (by decide)

/-- C9: no-match identity: if no pattern's regex finds a match
anywhere in the line, rewriting returns the line unchanged. -/
theorem C9_no_match_identity :
    ∀ (tzOff : Int) (line : List Char) (pats : List DateTimePattern),
      (∀ pat ∈ pats, rxFind pat.regex line = none) →
      parse_timestamp tzOff line pats = some line := by
  intro tzOff line pats h
  induction pats with
  | nil => rfl
  | cons p rest ih =>
    have hp := h p (List.mem_cons_self _ _)
    simp only [parse_timestamp, hp]
    exact ih (fun q hq => h q (List.mem_cons_of_mem _ hq))

/-- C9 witness at the spec's no-timestamp example. -/
theorem C9_no_match_identity_witness :
    parse_timestamp 0 "no timestamp here".toList [patZdef] =
      some "no timestamp here".toList :=
  C9_no_match_identity 0 _ [patZdef] (by decide)

/-- C10: whenever convert_dt_spec_regex returns at all it returns Ok:
the declared std::fmt::Error channel is never an Err (writing into a
String cannot fail) and every failure mode is a panic, modelled as
none. -/
theorem C10_fmt_error_never_returned :
    ∀ fmt : List Char, convert_dt_spec_regex fmt = none ∨
      ∃ p, convert_dt_spec_regex fmt = some (Except.ok p) := by
  intro fmt
  unfold convert_dt_spec_regex convertFromItems
  rcases emitItems_shape (strftimeItems fmt) [] true (zuluSeed fmt) with h | ⟨v, h⟩
  · rw [h]
    exact Or.inl rfl
  · obtain ⟨buf, n, z⟩ := v
    rw [h]
    cases hrp : rxParse buf with
    | none =>
      left
      simp [hrp]
    | some r =>
      right
      exact ⟨⟨fmt, buf, r, n, z⟩, by simp [hrp]⟩

end Logzen
